import Mathlib

/-!
Verification development for the distinct-frame selection and timeline-merge
logic of the `video-transcriber` repository.

The embedding follows the Python source:
  * `src/video_transcriber/domain/frame_comparison.py` (`frames_similar`),
  * `src/video_transcriber/domain/models.py` (`FrameResult`, `AudioSegment`,
    `TranscriptResult`),
  * `src/video_transcriber/domain/video_transcriber.py`
    (`VideoTranscriber.extract_distinct_frames`,
    `VideoTranscriber._merge_audio_with_frames`,
    `VideoTranscriber.process_video`),
  * `src/video_transcriber/domain/frame_selector.py`
    (`FrameSelector.extract_distinct_frames`).

Python floats that arise here (timestamps, similarity ratios, thresholds) are
modelled as rationals; the one float value with no rational counterpart,
`nan` (produced by `np.mean` of an empty array), is modelled by `Option.none`,
and the comparison `nan < t`, which is `False` in Python, is modelled by
`simLt none t = false`.  `compute_frame_hash` (cv2 colour conversion and
area-interpolated resize) is not embedded: it is a deterministic pure function
of the pixel data producing a 256-bit boolean vector, so a frame in the
embedding simply carries that vector as a `fingerprint` field.
-/

/-- A sampled video frame as the selector sees it: `frame_number` and
`timestamp_seconds` from `Frame` in `ports/video_reader.py`, together with the
boolean perceptual-hash vector that `compute_frame_hash(frame.image)` would
produce for its image (`hash_size = 16`, hence 256 bits in the real system). -/
structure PyFrame where
  frame_number : ℤ
  timestamp_seconds : ℚ
  fingerprint : List Bool
deriving DecidableEq

/-- `AudioSegment` from `domain/models.py`: a transcribed span of audio. -/
structure AudioSegment where
  start_seconds : ℚ
  end_seconds : ℚ
  text : String
deriving DecidableEq

/-- `FrameResult` from `domain/models.py` (lines 126-130): a dataclass whose
constructor fields are exactly `frame` and `audio_segments` (the latter with a
`field(default_factory=list)` default).  `frame_number`, `timestamp_seconds`
and `image` exist only as read-only `@property` delegates, not as
constructor parameters. -/
structure FrameResult where
  frame : PyFrame
  audio_segments : List AudioSegment := []
deriving DecidableEq

/-- The `timestamp_seconds` property of `FrameResult`, delegating to the
wrapped frame. -/
def FrameResult.timestamp_seconds (r : FrameResult) : ℚ :=
  r.frame.timestamp_seconds

/-- `TranscriptResult` from `domain/models.py`: frames plus the flat
segment list. -/
structure TranscriptResult where
  frames : List FrameResult
  audio_segments : List AudioSegment
deriving DecidableEq

/-- The Python exception kind relevant here: `TypeError`, raised when a call
passes a keyword argument the callee does not accept. -/
inductive PyErr where
  | typeError
deriving DecidableEq

/-- Keyword-argument names accepted by the generated `FrameResult.__init__`
(the dataclass fields, in order). -/
def FrameResult.init_fields : List String := ["frame", "audio_segments"]

/-- Dataclass fields of `FrameResult` that carry a default and may therefore
be omitted from a call. -/
def FrameResult.init_defaulted : List String := ["audio_segments"]

/-- Keyword-argument names used by the `FrameResult(...)` construction inside
`VideoTranscriber.extract_distinct_frames` (video_transcriber.py lines 84-88). -/
def vt_yield_call_kwargs : List String :=
  ["frame_number", "timestamp_seconds", "image"]

/-- Keyword-argument names used by the `FrameResult(...)` construction inside
`FrameSelector.extract_distinct_frames` (frame_selector.py lines 74-78). -/
def fs_yield_call_kwargs : List String :=
  ["frame_number", "timestamp_seconds", "image"]

/-- Python's calling convention for a keyword-only dataclass call: the call
succeeds iff every passed keyword names a field and every field without a
default is passed; otherwise the interpreter raises `TypeError`. -/
def dataclassCallAccepts (fields defaulted passed : List String) : Bool :=
  passed.all (fun k => fields.contains k) &&
    fields.all (fun f => defaulted.contains f || passed.contains f)

/-- `frames_similar` from `domain/frame_comparison.py` (lines 34-44):
`float(np.mean(hash1 == hash2))`.  For equal-length non-empty boolean arrays
this is the number of agreeing positions divided by the common length.
`none` stands for the two non-numeric outcomes: a shape mismatch (`ValueError`
from broadcasting) and the `nan` that `np.mean` returns on an empty
comparison; neither occurs at the selector's call sites, where both hashes
come from `compute_frame_hash` and have length 256. -/
def frames_similar (hash1 hash2 : List Bool) : Option ℚ :=
  if hash1.length = hash2.length then
    if hash1.length = 0 then none
    else some ((((hash1.zip hash2).countP fun p => p.1 == p.2 : ℕ) : ℚ) /
      (hash1.length : ℚ))
  else none

/-- Comparison `similarity < threshold` on a possibly non-numeric similarity:
in Python `nan < t` is `False`, so the `none` case yields `false`. -/
def simLt (sim : Option ℚ) (t : ℚ) : Bool :=
  match sim with
  | none => false
  | some q => decide (q < t)

/-- Configuration of `VideoTranscriber` relevant to frame selection:
`similarity_threshold` (float, default 0.92) and `min_frame_interval`
(int, default 15). -/
structure VTConfig where
  similarity_threshold : ℚ
  min_frame_interval : ℤ
deriving DecidableEq

/-- The loop state of `VideoTranscriber.extract_distinct_frames`:
`last_hash` (initially `None`) and `last_captured_frame`
(initially `-min_frame_interval`). -/
structure SelState where
  last_hash : Option (List Bool)
  last_captured_frame : ℤ
deriving DecidableEq

/-- The initial loop state (video_transcriber.py lines 66-67):
`last_hash = None`, `last_captured_frame = -self.min_frame_interval`. -/
def initState (cfg : VTConfig) : SelState :=
  ⟨none, -cfg.min_frame_interval⟩

/-- The per-frame decision of `VideoTranscriber.extract_distinct_frames`
(lines 74-81): distinct when no frame has been captured yet; otherwise
distinct iff `frames_similar(current, last) < similarity_threshold` and
`frame_number - last_captured_frame >= min_frame_interval`. -/
def isDistinct (cfg : VTConfig) (s : SelState) (f : PyFrame) : Bool :=
  match s.last_hash with
  | none => true
  | some h =>
      simLt (frames_similar f.fingerprint h) cfg.similarity_threshold &&
        decide (cfg.min_frame_interval ≤ f.frame_number - s.last_captured_frame)

/-- The state update of the loop (lines 83-91): on a capture, `last_hash` and
`last_captured_frame` become the current frame's; on a rejection the state is
untouched. -/
def stepState (cfg : VTConfig) (s : SelState) (f : PyFrame) : SelState :=
  if isDistinct cfg s f then ⟨some f.fingerprint, f.frame_number⟩ else s

/-- The loop state after consuming a prefix of the stream. -/
def runState (cfg : VTConfig) (s : SelState) (stream : List PyFrame) : SelState :=
  stream.foldl (stepState cfg) s

/-- The selection decision of `VideoTranscriber.extract_distinct_frames` in
isolation: the subsequence of frames the loop judges distinct, i.e. exactly
the frames at which the generator attempts to emit a `FrameResult`.  The
(always failing) `FrameResult(...)` construction itself is modelled separately
by `extractGo` / `extract_distinct_frames` below. -/
def selectGo (cfg : VTConfig) (s : SelState) : List PyFrame → List PyFrame
  | [] => []
  | f :: rest =>
      if isDistinct cfg s f then
        f :: selectGo cfg ⟨some f.fingerprint, f.frame_number⟩ rest
      else
        selectGo cfg s rest

/-- The frames `VideoTranscriber.extract_distinct_frames` judges distinct
over a whole stream, starting from the fresh state of lines 66-67. -/
def selectDistinctFrames (cfg : VTConfig) (stream : List PyFrame) : List PyFrame :=
  selectGo cfg (initState cfg) stream

/-- Result of running a Python generator to completion: the values it
successfully yielded, and the exception (if any) that terminated it. -/
structure GenOutput where
  yielded : List FrameResult
  error : Option PyErr
deriving DecidableEq

/-- The body of `VideoTranscriber.extract_distinct_frames` (lines 69-91),
including the `FrameResult(frame_number=..., timestamp_seconds=..., image=...)`
construction at lines 84-88.  Because those keywords are not fields of the
`FrameResult` dataclass, the construction raises `TypeError` whenever it is
reached, so the branch that would yield and update the state is unreachable;
it is still written out, for the hypothetical accepted call. -/
def extractGo (cfg : VTConfig) (s : SelState) : List PyFrame → GenOutput
  | [] => ⟨[], none⟩
  | f :: rest =>
      if isDistinct cfg s f then
        if dataclassCallAccepts FrameResult.init_fields FrameResult.init_defaulted
            vt_yield_call_kwargs then
          let out := extractGo cfg ⟨some f.fingerprint, f.frame_number⟩ rest
          ⟨⟨f, []⟩ :: out.yielded, out.error⟩
        else ⟨[], some PyErr.typeError⟩
      else extractGo cfg s rest

/-- `VideoTranscriber.extract_distinct_frames` run over a finite stream:
yielded values plus terminating exception, from the fresh state. -/
def extract_distinct_frames (cfg : VTConfig) (stream : List PyFrame) : GenOutput :=
  extractGo cfg (initState cfg) stream

/-- The similarity computed by `FrameSelector._differ_enough`
(frame_selector.py line 47): `frames_similar(current_hash, last_hash)` where
`last_hash` may still be `None`.  numpy evaluates `array == None`
elementwise to `False`, so for a non-empty current hash the mean is `0.0`
(and `nan`, i.e. `none`, for an empty one). -/
def fsSimilarity (fp : List Bool) (last : Option (List Bool)) : Option ℚ :=
  match last with
  | none => if fp.length = 0 then none else some 0
  | some h => frames_similar fp h

/-- `FrameSelector._is_frame_distinct` (lines 41-47): similarity below the
threshold and index gap at least `min_frame_interval`; the sentinel
`last_captured_frame_number = -min_frame_interval` is set by `_reset_state`. -/
def fsIsDistinct (cfg : VTConfig) (s : SelState) (f : PyFrame) : Bool :=
  simLt (fsSimilarity f.fingerprint s.last_hash) cfg.similarity_threshold &&
    decide (cfg.min_frame_interval ≤ f.frame_number - s.last_captured_frame)

/-- The body of `FrameSelector.extract_distinct_frames` (lines 68-78), with
the same mismatched `FrameResult(...)` keyword call at lines 74-78. -/
def fsExtractGo (cfg : VTConfig) (s : SelState) : List PyFrame → GenOutput
  | [] => ⟨[], none⟩
  | f :: rest =>
      if fsIsDistinct cfg s f then
        if dataclassCallAccepts FrameResult.init_fields FrameResult.init_defaulted
            fs_yield_call_kwargs then
          let out := fsExtractGo cfg ⟨some f.fingerprint, f.frame_number⟩ rest
          ⟨⟨f, []⟩ :: out.yielded, out.error⟩
        else ⟨[], some PyErr.typeError⟩
      else fsExtractGo cfg s rest

/-- `FrameSelector.extract_distinct_frames` run over a finite stream, from the
state established by `_reset_state`. -/
def fs_extract_distinct_frames (cfg : VTConfig) (stream : List PyFrame) : GenOutput :=
  fsExtractGo cfg (initState cfg) stream

/-- The loop body of `VideoTranscriber._merge_audio_with_frames`
(lines 173-186): frame `i` keeps the segments whose start lies in
`[frames[i].timestamp_seconds, frames[i+1].timestamp_seconds)`, the last
frame's window extending to `float('inf')`. -/
def mergeGo : List FrameResult → List AudioSegment → List FrameResult
  | [], _ => []
  | [f], segs =>
      [{ f with audio_segments :=
          segs.filter fun s => decide (f.timestamp_seconds ≤ s.start_seconds) }]
  | f :: g :: rest, segs =>
      { f with audio_segments :=
          segs.filter fun s =>
            decide (f.timestamp_seconds ≤ s.start_seconds) &&
              decide (s.start_seconds < g.timestamp_seconds) } ::
        mergeGo (g :: rest) segs

/-- `VideoTranscriber._merge_audio_with_frames` (lines 153-188): returns the
frames unchanged when there are no audio segments (line 170-171), otherwise
rewrites each frame's `audio_segments` by the timestamp-window filter. -/
def merge_audio_with_frames (frames : List FrameResult)
    (audio_segments : List AudioSegment) : List FrameResult :=
  if audio_segments = [] then frames else mergeGo frames audio_segments

/-- `VideoTranscriber.process_video` (lines 190-227) after the port calls:
`stream` is what `video_reader.read_frames` produces and `audio_segments` what
`_extract_and_transcribe_audio` returned.  The frame list is collected from
the `extract_distinct_frames` generator (an exception raised there propagates
out of `process_video`), merged with the audio, and packed into a
`TranscriptResult` together with the flat segment list.  Vision transcription
only annotates frames and is outside the embedded data. -/
def process_video (cfg : VTConfig) (stream : List PyFrame)
    (audio_segments : List AudioSegment) : Except PyErr TranscriptResult :=
  let gen := extract_distinct_frames cfg stream
  match gen.error with
  | some e => Except.error e
  | none =>
      Except.ok ⟨merge_audio_with_frames gen.yielded audio_segments, audio_segments⟩

/-- Follows the spec's words (§4.2-§4.3) for the refinement comparison of the
selector: the similarity consulted by the spec's uniform per-frame procedure,
defined as `0.0` when there is no prior capture and as the comparator's value
otherwise. -/
def specSimilarity (s : SelState) (fp : List Bool) : Option ℚ :=
  match s.last_hash with
  | none => some 0
  | some h => frames_similar fp h

/-- Follows the spec's words (§4.3 steps 2-5): `distinct = sim < threshold`,
`spaced = index - lastCapturedFrameIndex >= minFrameInterval`, accept iff
`distinct AND spaced`, with no separate first-frame case. -/
def specIsDistinct (cfg : VTConfig) (s : SelState) (f : PyFrame) : Bool :=
  simLt (specSimilarity s f.fingerprint) cfg.similarity_threshold &&
    decide (cfg.min_frame_interval ≤ f.frame_number - s.last_captured_frame)

/-- The spec's uniform selection procedure, run with the sentinel state of
§4.3 (`lastCapturedFingerprint` absent, `lastCapturedFrameIndex`
initialized to `-minFrameInterval`). -/
def specSelectGo (cfg : VTConfig) (s : SelState) : List PyFrame → List PyFrame
  | [] => []
  | f :: rest =>
      if specIsDistinct cfg s f then
        f :: specSelectGo cfg ⟨some f.fingerprint, f.frame_number⟩ rest
      else
        specSelectGo cfg s rest

/-- The spec's `selectDistinctFrames` over a whole stream. -/
def specSelectDistinctFrames (cfg : VTConfig) (stream : List PyFrame) :
    List PyFrame :=
  specSelectGo cfg (initState cfg) stream

/-! ## Helper lemmas -/

theorem countP_zip_self (l : List Bool) :
    (l.zip l).countP (fun p => p.1 == p.2) = l.length := by
  induction l with
  | nil => rfl
  | cons a t ih => simp [List.zip_cons_cons, List.countP_cons, ih]

theorem mem_zip_ne_of_forall₂ {l1 l2 : List Bool}
    (h : List.Forall₂ (fun a b => a ≠ b) l1 l2) :
    ∀ p ∈ l1.zip l2, ¬((fun p : Bool × Bool => p.1 == p.2) p = true) := by
  induction h with
  | nil => simp
  | @cons a b t1 t2 hab _ ih =>
      intro p hp
      rw [List.zip_cons_cons, List.mem_cons] at hp
      rcases hp with rfl | hp
      · simpa using hab
      · exact ih p hp

theorem fsExtractGo_yielded (cfg : VTConfig) (stream : List PyFrame) :
    ∀ s : SelState, (fsExtractGo cfg s stream).yielded = [] := by
  induction stream with
  | nil => intro s; rfl
  | cons f rest ih =>
      intro s
      have hacc : dataclassCallAccepts FrameResult.init_fields
          FrameResult.init_defaulted fs_yield_call_kwargs = false := by decide
      rcases Bool.eq_false_or_eq_true (fsIsDistinct cfg s f) with h | h
      · simp [fsExtractGo, h, hacc, ih]
      · simp [fsExtractGo, h, hacc, ih]

theorem chain_head_lt (f : FrameResult) (l : List FrameResult)
    (hc : List.Chain'
      (fun a b => a.timestamp_seconds < b.timestamp_seconds) (f :: l)) :
    ∀ g ∈ l, f.timestamp_seconds < g.timestamp_seconds := by
  induction l generalizing f with
  | nil => simp
  | cons g rest ih =>
      intro x hx
      have hfg : f.timestamp_seconds < g.timestamp_seconds :=
        (List.chain'_cons.mp hc).1
      rcases List.mem_cons.mp hx with rfl | hx
      · exact hfg
      · exact lt_trans hfg (ih g (List.chain'_cons.mp hc).2 x hx)

theorem mergeGo_not_mem (s : AudioSegment) (segs : List AudioSegment) :
    ∀ frames : List FrameResult,
      (∀ f ∈ frames, s.start_seconds < f.timestamp_seconds) →
      ∀ f ∈ mergeGo frames segs, s ∉ f.audio_segments := by
  intro frames
  induction frames with
  | nil => intro _ f hf; simp [mergeGo] at hf
  | cons f tail ih =>
      intro hall g hg
      cases tail with
      | nil =>
          simp only [mergeGo, List.mem_singleton] at hg
          subst hg
          intro hmem
          rw [List.mem_filter] at hmem
          have h1 := hall f (List.mem_cons_self f [])
          have h2 : f.timestamp_seconds ≤ s.start_seconds := by
            simpa using hmem.2
          exact absurd h1 (not_lt.mpr h2)
      | cons g2 rest =>
          simp only [mergeGo, List.mem_cons] at hg
          rcases hg with rfl | hg
          · intro hmem
            rw [List.mem_filter] at hmem
            have h1 := hall f (List.mem_cons_self f (g2 :: rest))
            have h2 : f.timestamp_seconds ≤ s.start_seconds := by
              have := hmem.2
              simp only [Bool.and_eq_true, decide_eq_true_eq] at this
              exact this.1
            exact absurd h1 (not_lt.mpr h2)
          · exact ih (fun x hx => hall x (List.mem_cons_of_mem f hx)) g hg

theorem mergeGo_countP (s : AudioSegment) (segs : List AudioSegment)
    (hmem : s ∈ segs) :
    ∀ (frames : List FrameResult) (f0 : FrameResult),
      List.Chain'
        (fun a b => a.timestamp_seconds < b.timestamp_seconds) frames →
      frames.head? = some f0 →
      (mergeGo frames segs).countP (fun f => decide (s ∈ f.audio_segments)) =
        if f0.timestamp_seconds ≤ s.start_seconds then 1 else 0 := by
  intro frames
  induction frames with
  | nil => intro f0 _ hh; simp at hh
  | cons f tail ih =>
      intro f0 hc hh
      have hf0 : f0 = f := by simpa using hh.symm
      subst hf0
      cases tail with
      | nil =>
          simp only [mergeGo]
          rw [List.countP_cons, List.countP_nil]
          by_cases h1 : f0.timestamp_seconds ≤ s.start_seconds
          · rw [if_pos h1]
            have : s ∈ segs.filter
                (fun s' => decide (f0.timestamp_seconds ≤ s'.start_seconds)) := by
              rw [List.mem_filter]
              exact ⟨hmem, by simpa using h1⟩
            simp [this]
          · rw [if_neg h1]
            have : s ∉ segs.filter
                (fun s' => decide (f0.timestamp_seconds ≤ s'.start_seconds)) := by
              rw [List.mem_filter]
              rintro ⟨-, hdec⟩
              exact h1 (by simpa using hdec)
            simp [this]
      | cons g rest =>
          have hfg : f0.timestamp_seconds < g.timestamp_seconds :=
            (List.chain'_cons.mp hc).1
          have hctail := (List.chain'_cons.mp hc).2
          have ihg := ih g hctail rfl
          simp only [mergeGo]
          rw [List.countP_cons, ihg]
          by_cases h1 : f0.timestamp_seconds ≤ s.start_seconds
          · by_cases h2 : s.start_seconds < g.timestamp_seconds
            · have hin : s ∈ segs.filter (fun s' =>
                  decide (f0.timestamp_seconds ≤ s'.start_seconds) &&
                    decide (s'.start_seconds < g.timestamp_seconds)) := by
                rw [List.mem_filter]
                refine ⟨hmem, ?_⟩
                simp [h1, h2]
              rw [if_neg (not_le.mpr h2), if_pos h1]
              simp [hin]
            · have hout : s ∉ segs.filter (fun s' =>
                  decide (f0.timestamp_seconds ≤ s'.start_seconds) &&
                    decide (s'.start_seconds < g.timestamp_seconds)) := by
                rw [List.mem_filter]
                rintro ⟨-, hdec⟩
                simp only [Bool.and_eq_true, decide_eq_true_eq] at hdec
                exact h2 hdec.2
              rw [if_pos (not_lt.mp h2), if_pos h1]
              simp [hout]
          · have hout : s ∉ segs.filter (fun s' =>
                decide (f0.timestamp_seconds ≤ s'.start_seconds) &&
                  decide (s'.start_seconds < g.timestamp_seconds)) := by
              rw [List.mem_filter]
              rintro ⟨-, hdec⟩
              simp only [Bool.and_eq_true, decide_eq_true_eq] at hdec
              exact h1 hdec.1
            have hg2 : ¬ g.timestamp_seconds ≤ s.start_seconds := by
              intro hle
              exact h1 (le_of_lt (lt_of_lt_of_le hfg hle))
            rw [if_neg hg2, if_neg h1]
            simp [hout]

theorem selectGo_eq_specSelectGo_of_some (cfg : VTConfig) :
    ∀ (rest : List PyFrame) (s : SelState) (h : List Bool),
      s.last_hash = some h → selectGo cfg s rest = specSelectGo cfg s rest := by
  intro rest
  induction rest with
  | nil => intro s h _; rfl
  | cons f rest' ih =>
      intro s h hs
      obtain ⟨lh, lc⟩ := s
      simp only at hs
      subst hs
      have heq : isDistinct cfg ⟨some h, lc⟩ f = specIsDistinct cfg ⟨some h, lc⟩ f :=
        rfl
      rw [selectGo, specSelectGo, heq]
      by_cases hd : specIsDistinct cfg ⟨some h, lc⟩ f = true
      · rw [if_pos hd, if_pos hd,
          ih ⟨some f.fingerprint, f.frame_number⟩ f.fingerprint rfl]
      · rw [if_neg hd, if_neg hd, ih ⟨some h, lc⟩ h rfl]

/-! ## Claim theorems -/

/-- C1: the selection logic of `extract_distinct_frames` always decides to
capture the first frame of any non-empty stream (first conjunct), but the
generator itself, run on a concrete single-frame stream with the default
configuration, raises `TypeError` at that very capture and emits nothing
(second conjunct): the emission promised by the claim and by the method's
own docstring never happens. -/
theorem first_frame_selected_but_generator_raises :
    (∀ (cfg : VTConfig) (f : PyFrame) (rest : List PyFrame),
      (selectDistinctFrames cfg (f :: rest)).head? = some f) ∧
    extract_distinct_frames ⟨92/100, 15⟩ [⟨0, 0, [true]⟩] =
      ⟨[], some PyErr.typeError⟩ := by
  constructor
  · intro cfg f rest
    simp [selectDistinctFrames, selectGo, initState, isDistinct]
  · decide

/-- C2: for every configuration and every non-empty frame stream,
`VideoTranscriber.extract_distinct_frames` terminates with a `TypeError` and
yields no `FrameResult` at all; moreover `FrameSelector.extract_distinct_frames`
performs the identical mismatched keyword call (same keyword list, rejected by
the `FrameResult` dataclass constructor) and therefore also never successfully
yields. -/
theorem extract_distinct_frames_always_raises (cfg : VTConfig)
    (stream : List PyFrame) (hne : stream ≠ []) :
    extract_distinct_frames cfg stream = ⟨[], some PyErr.typeError⟩ ∧
    fs_yield_call_kwargs = vt_yield_call_kwargs ∧
    dataclassCallAccepts FrameResult.init_fields FrameResult.init_defaulted
      fs_yield_call_kwargs = false ∧
    ∀ (cfg' : VTConfig) (stream' : List PyFrame),
      (fs_extract_distinct_frames cfg' stream').yielded = [] := by
  refine ⟨?_, rfl, by decide, ?_⟩
  · cases stream with
    | nil => exact absurd rfl hne
    | cons f rest =>
        have hacc : dataclassCallAccepts FrameResult.init_fields
            FrameResult.init_defaulted vt_yield_call_kwargs = false := by decide
        simp [extract_distinct_frames, extractGo, initState, isDistinct, hacc]
  · intro cfg' stream'
    exact fsExtractGo_yielded cfg' stream' (initState cfg')

/-- C2 witness: the theorem instantiated on a concrete one-frame stream with
the default configuration. -/
theorem extract_distinct_frames_always_raises_witness :
    extract_distinct_frames ⟨92/100, 15⟩ [⟨3, 1/10, [true, false]⟩] =
      ⟨[], some PyErr.typeError⟩ ∧
    fs_yield_call_kwargs = vt_yield_call_kwargs ∧
    dataclassCallAccepts FrameResult.init_fields FrameResult.init_defaulted
      fs_yield_call_kwargs = false ∧
    ∀ (cfg' : VTConfig) (stream' : List PyFrame),
      (fs_extract_distinct_frames cfg' stream').yielded = [] :=
  extract_distinct_frames_always_raises ⟨92/100, 15⟩ [⟨3, 1/10, [true, false]⟩]
    (by decide)

/-- C3 counterexample: with a single captured frame at timestamp 5 and a
segment starting at 2 ∈ [0, 5), the merge leaves the segment unassigned — the
first frame's window starts at its own timestamp, not at 0 as the claim
states. -/
theorem merge_first_window_counterexample :
    merge_audio_with_frames [⟨⟨0, 5, []⟩, []⟩] [⟨2, 3, "a"⟩] =
      [⟨⟨0, 5, []⟩, []⟩] ∧
    (⟨2, 3, "a"⟩ : AudioSegment) ∉
      (⟨⟨0, 5, []⟩, ([] : List AudioSegment)⟩ : FrameResult).audio_segments := by
  constructor
  · decide
  · simp

/-- C3 (amended): in `_merge_audio_with_frames` the ownership window of the
first captured frame starts at that frame's own timestamp, so for every
captured-frame list with strictly increasing timestamps, every segment whose
start time lies in [0, firstFrame.timestamp) is assigned to no frame at all. -/
theorem segment_before_first_frame_unassigned (frames : List FrameResult)
    (segs : List AudioSegment) (s : AudioSegment) (f0 : FrameResult)
    (hhead : frames.head? = some f0)
    (hmono : List.Chain'
      (fun a b => a.timestamp_seconds < b.timestamp_seconds) frames)
    (hnn : 0 ≤ s.start_seconds)
    (hlt : s.start_seconds < f0.timestamp_seconds)
    (hmem : s ∈ segs) :
    ∀ f ∈ merge_audio_with_frames frames segs, s ∉ f.audio_segments := by
  have hne : segs ≠ [] := by rintro rfl; simp at hmem
  rw [merge_audio_with_frames, if_neg hne]
  cases frames with
  | nil => intro f hf; simp [mergeGo] at hf
  | cons f1 tail =>
      have hf1 : f0 = f1 := by simpa using hhead.symm
      subst hf1
      apply mergeGo_not_mem
      intro f hf
      rcases List.mem_cons.mp hf with rfl | hf
      · exact hlt
      · exact lt_trans hlt (chain_head_lt f0 tail hmono f hf)

/-- C3 witness: a two-frame list at timestamps 5 and 9 and a segment starting
at 2; the theorem shows the segment ends up in neither frame. -/
theorem segment_before_first_frame_unassigned_witness :
    (merge_audio_with_frames [⟨⟨0, 5, []⟩, []⟩, ⟨⟨30, 9, []⟩, []⟩]
        [⟨2, 3, "a"⟩]).all
      (fun f => !(decide ((⟨2, 3, "a"⟩ : AudioSegment) ∈ f.audio_segments))) =
      true := by
  rw [List.all_eq_true]
  intro f hf
  simpa using segment_before_first_frame_unassigned
    [⟨⟨0, 5, []⟩, []⟩, ⟨⟨30, 9, []⟩, []⟩] [⟨2, 3, "a"⟩] ⟨2, 3, "a"⟩
    ⟨⟨0, 5, []⟩, []⟩ rfl
    (by norm_num [List.chain'_cons, FrameResult.timestamp_seconds])
    (by norm_num) (by norm_num [FrameResult.timestamp_seconds]) (by simp)
    f hf

/-- C4: the threshold comparison at video_transcriber.py line 79 is strict:
once a fingerprint has been captured, a frame whose similarity to it is
exactly the threshold is judged not distinct, while a frame whose similarity
is strictly below the threshold and which satisfies the spacing guard is
judged distinct. -/
theorem threshold_comparison_strict (cfg : VTConfig) (s : SelState)
    (h : List Bool) (f1 f2 : PyFrame) (q : ℚ)
    (hs : s.last_hash = some h)
    (h1 : frames_similar f1.fingerprint h = some cfg.similarity_threshold)
    (h2 : frames_similar f2.fingerprint h = some q)
    (hq : q < cfg.similarity_threshold)
    (hsp : cfg.min_frame_interval ≤ f2.frame_number - s.last_captured_frame) :
    isDistinct cfg s f1 = false ∧ isDistinct cfg s f2 = true := by
  obtain ⟨lh, lc⟩ := s
  simp only at hs
  subst hs
  constructor
  · simp [isDistinct, simLt, h1]
  · simp only at hsp
    simp [isDistinct, simLt, h2, hq, hsp]

/-- C4 witness: last captured fingerprint `[true, false]`; a frame at
similarity exactly 1/2 (= threshold) is rejected and a frame at similarity 0
with sufficient spacing is accepted. -/
theorem threshold_comparison_strict_witness :
    isDistinct ⟨1/2, 1⟩ ⟨some [true, false], 0⟩ ⟨5, 1, [true, true]⟩ = false ∧
    isDistinct ⟨1/2, 1⟩ ⟨some [true, false], 0⟩ ⟨5, 1, [false, true]⟩ = true :=
  threshold_comparison_strict ⟨1/2, 1⟩ ⟨some [true, false], 0⟩ [true, false]
    ⟨5, 1, [true, true]⟩ ⟨5, 1, [false, true]⟩ 0 rfl
    (by norm_num [frames_similar, List.countP_cons])
    (by norm_num [frames_similar, List.countP_cons])
    (by norm_num) (by decide)

/-- C5: the spacing guard at video_transcriber.py line 80 compares with `>=`:
with `min_frame_interval = k ≥ 1` and two frames of below-threshold
similarity, indices 0 and k-1 produce exactly one captured frame while
indices 0 and k produce exactly two. -/
theorem spacing_guard_uses_ge (cfg : VTConfig) (f0 f1 f1' : PyFrame)
    (hk : 1 ≤ cfg.min_frame_interval)
    (h0 : f0.frame_number = 0)
    (h1 : f1.frame_number = cfg.min_frame_interval - 1)
    (h1' : f1'.frame_number = cfg.min_frame_interval)
    (hsim : simLt (frames_similar f1.fingerprint f0.fingerprint)
      cfg.similarity_threshold = true)
    (hsim' : simLt (frames_similar f1'.fingerprint f0.fingerprint)
      cfg.similarity_threshold = true) :
    (selectDistinctFrames cfg [f0, f1]).length = 1 ∧
    (selectDistinctFrames cfg [f0, f1']).length = 2 := by
  have ha : isDistinct cfg (initState cfg) f0 = true := rfl
  have hb : isDistinct cfg ⟨some f0.fingerprint, f0.frame_number⟩ f1 = false := by
    simp only [isDistinct, hsim, Bool.true_and, decide_eq_false_iff_not]
    rw [h0, h1]
    omega
  have hb' : isDistinct cfg ⟨some f0.fingerprint, f0.frame_number⟩ f1' = true := by
    simp only [isDistinct, hsim', Bool.true_and, decide_eq_true_eq]
    rw [h0, h1']
    omega
  constructor
  · rw [selectDistinctFrames, selectGo, if_pos ha, selectGo, if_neg ?_, selectGo]
    · rfl
    · rw [hb]; simp
  · rw [selectDistinctFrames, selectGo, if_pos ha, selectGo, if_pos hb', selectGo]
    rfl

/-- C5 witness: threshold 1/2, interval 3, visually opposite fingerprints;
indices 0 and 2 give one capture, indices 0 and 3 give two. -/
theorem spacing_guard_uses_ge_witness :
    (selectDistinctFrames ⟨1/2, 3⟩
      [⟨0, 0, [true, false]⟩, ⟨2, 1, [false, true]⟩]).length = 1 ∧
    (selectDistinctFrames ⟨1/2, 3⟩
      [⟨0, 0, [true, false]⟩, ⟨3, 1, [false, true]⟩]).length = 2 :=
  spacing_guard_uses_ge ⟨1/2, 3⟩ ⟨0, 0, [true, false]⟩ ⟨2, 1, [false, true]⟩
    ⟨3, 1, [false, true]⟩ (by norm_num) rfl (by decide) (by decide)
    (by norm_num [frames_similar, simLt, List.countP_cons])
    (by norm_num [frames_similar, simLt, List.countP_cons])

/-- C6: when a frame is rejected by the selection decision (not distinct, too
close, or both), the loop state — `last_hash` and `last_captured_frame` — is
exactly what it was before that frame was processed, for any prefix of any
stream. -/
theorem rejection_leaves_state_unchanged (cfg : VTConfig)
    (pre : List PyFrame) (f : PyFrame)
    (hrej : isDistinct cfg (runState cfg (initState cfg) pre) f = false) :
    runState cfg (initState cfg) (pre ++ [f]) =
      runState cfg (initState cfg) pre := by
  simp only [runState] at hrej ⊢
  rw [List.foldl_append]
  simp [stepState, hrej]

/-- C6 witness: after capturing frame 0, an identical frame one index later is
rejected (similarity 1 is not < 92/100) and the state is unchanged. -/
theorem rejection_leaves_state_unchanged_witness :
    runState ⟨92/100, 15⟩ (initState ⟨92/100, 15⟩)
        ([⟨0, 0, [true, false]⟩] ++ [⟨1, 1/30, [true, false]⟩]) =
      runState ⟨92/100, 15⟩ (initState ⟨92/100, 15⟩) [⟨0, 0, [true, false]⟩] :=
  rejection_leaves_state_unchanged ⟨92/100, 15⟩ [⟨0, 0, [true, false]⟩]
    ⟨1, 1/30, [true, false]⟩
    (by norm_num [runState, stepState, initState, isDistinct, frames_similar,
      simLt, List.countP_cons])

/-- C7 counterexample: frame timestamps are (trivially) strictly increasing,
yet the segment starting at 2, before the single frame's timestamp 5, is
attached to zero frames, not exactly one. -/
theorem merge_partition_counterexample :
    (merge_audio_with_frames [⟨⟨0, 5, []⟩, []⟩] [⟨2, 3, "b"⟩]).countP
      (fun f => decide ((⟨2, 3, "b"⟩ : AudioSegment) ∈ f.audio_segments)) = 0 := by
  decide

/-- C7 (amended): for a non-empty captured-frame list with strictly increasing
timestamps, `_merge_audio_with_frames` attaches a segment to exactly one frame
iff its start time is at or after the first frame's timestamp; a segment
starting earlier is attached to no frame.  In particular no segment is ever
attached twice. -/
theorem merge_attaches_each_late_segment_once (frames : List FrameResult)
    (segs : List AudioSegment) (s : AudioSegment) (f0 : FrameResult)
    (hhead : frames.head? = some f0)
    (hmono : List.Chain'
      (fun a b => a.timestamp_seconds < b.timestamp_seconds) frames)
    (hmem : s ∈ segs) :
    (merge_audio_with_frames frames segs).countP
        (fun f => decide (s ∈ f.audio_segments)) =
      if f0.timestamp_seconds ≤ s.start_seconds then 1 else 0 := by
  have hne : segs ≠ [] := by rintro rfl; simp at hmem
  rw [merge_audio_with_frames, if_neg hne]
  exact mergeGo_countP s segs hmem frames f0 hmono hhead

/-- C7 witness: frames at timestamps 5 and 9 with a segment starting at 6:
the segment is attached exactly once. -/
theorem merge_attaches_each_late_segment_once_witness :
    (merge_audio_with_frames [⟨⟨0, 5, []⟩, []⟩, ⟨⟨30, 9, []⟩, []⟩]
        [⟨6, 7, "c"⟩]).countP
        (fun f => decide ((⟨6, 7, "c"⟩ : AudioSegment) ∈ f.audio_segments)) =
      if (⟨⟨0, 5, []⟩, ([] : List AudioSegment)⟩ :
          FrameResult).timestamp_seconds ≤
          (⟨6, 7, "c"⟩ : AudioSegment).start_seconds then 1 else 0 :=
  merge_attaches_each_late_segment_once
    [⟨⟨0, 5, []⟩, []⟩, ⟨⟨30, 9, []⟩, []⟩] [⟨6, 7, "c"⟩] ⟨6, 7, "c"⟩
    ⟨⟨0, 5, []⟩, []⟩ rfl
    (by norm_num [List.chain'_cons, FrameResult.timestamp_seconds]) (by simp)

/-- C8 counterexample: two identical fingerprints of equal length — the empty
ones — for which `frames_similar` does not return 1.0: `np.mean` of an empty
comparison is `nan` (here `none`), refuting the claim's universal
quantification over all equal-length fingerprint pairs. -/
theorem frames_similar_empty_identical_counterexample :
    frames_similar ([] : List Bool) [] = none ∧
    frames_similar ([] : List Bool) [] ≠ some 1 := by
  refine ⟨rfl, ?_⟩
  rw [show frames_similar ([] : List Bool) [] = none from rfl]
  simp

/-- C8 (amended): for equal-length non-empty fingerprints, `frames_similar`
returns the number of agreeing bit positions divided by the vector length;
this value lies in [0, 1], equals 1 when the fingerprints are identical, and
equals 0 when every bit differs. -/
theorem frames_similar_ratio_bounds (h1 h2 : List Bool)
    (hlen : h1.length = h2.length) (hne : h1 ≠ []) :
    frames_similar h1 h2 =
      some ((((h1.zip h2).countP fun p => p.1 == p.2 : ℕ) : ℚ) /
        (h1.length : ℚ)) ∧
    ∀ q, frames_similar h1 h2 = some q →
      0 ≤ q ∧ q ≤ 1 ∧ (h1 = h2 → q = 1) ∧
        (List.Forall₂ (fun a b => a ≠ b) h1 h2 → q = 0) := by
  have hlen0 : h1.length ≠ 0 := by
    intro h
    exact hne (List.eq_nil_of_length_eq_zero h)
  have heq : frames_similar h1 h2 =
      some ((((h1.zip h2).countP fun p => p.1 == p.2 : ℕ) : ℚ) /
        (h1.length : ℚ)) := by
    rw [frames_similar, if_pos hlen, if_neg hlen0]
  refine ⟨heq, ?_⟩
  intro q hq
  rw [heq] at hq
  injection hq with hq
  subst hq
  have hzlen : (h1.zip h2).length = h1.length := by
    rw [List.length_zip, hlen, Nat.min_self]
  have hcle : (h1.zip h2).countP (fun p => p.1 == p.2) ≤ h1.length := by
    rw [← hzlen]
    exact List.countP_le_length _
  have hposlen : (0 : ℚ) < (h1.length : ℚ) := by
    exact_mod_cast Nat.pos_of_ne_zero hlen0
  refine ⟨by positivity, ?_, ?_, ?_⟩
  · rw [div_le_one hposlen]
    exact_mod_cast hcle
  · intro h12
    subst h12
    rw [countP_zip_self h1]
    exact div_self (ne_of_gt hposlen)
  · intro hforall
    rw [List.countP_eq_zero.mpr (mem_zip_ne_of_forall₂ hforall)]
    norm_num

/-- C8 witness: fingerprints `[true, false]` and `[true, true]` (equal length,
non-empty), agreeing in one of two positions. -/
theorem frames_similar_ratio_bounds_witness :
    frames_similar [true, false] [true, true] =
      some (((([true, false].zip [true, true]).countP
          fun p => p.1 == p.2 : ℕ) : ℚ) /
        (([true, false] : List Bool).length : ℚ)) ∧
    ∀ q, frames_similar [true, false] [true, true] = some q →
      0 ≤ q ∧ q ≤ 1 ∧ (([true, false] : List Bool) = [true, true] → q = 1) ∧
        (List.Forall₂ (fun a b => a ≠ b) [true, false] [true, true] → q = 0) :=
  frames_similar_ratio_bounds [true, false] [true, true] rfl (by simp)

/-- C9 counterexample: at `similarity_threshold = 0` (which the claim's range
[0, 1] admits) the implementation still captures the first frame via its
`last_hash is None` branch, while the spec's uniform procedure computes
similarity 0.0 and rejects it under the strict comparison `0.0 < 0`. -/
theorem spec_procedure_diverges_at_zero_threshold :
    selectDistinctFrames ⟨0, 15⟩ [⟨0, 0, [true]⟩] ≠
      specSelectDistinctFrames ⟨0, 15⟩ [⟨0, 0, [true]⟩] := by
  decide

/-- C9 (amended): for every stream with non-negative strictly increasing
frame indices, every `min_frame_interval ≥ 0` and every strictly positive
threshold in (0, 1], the implementation's branching decision selects exactly
the same frames as the spec's uniform procedure (absent fingerprint reads as
similarity 0.0, sentinel index `-min_frame_interval`). -/
theorem impl_selection_matches_spec_procedure (cfg : VTConfig)
    (stream : List PyFrame)
    (ht : 0 < cfg.similarity_threshold) (ht1 : cfg.similarity_threshold ≤ 1)
    (hk : 0 ≤ cfg.min_frame_interval)
    (hidx : ∀ f ∈ stream, 0 ≤ f.frame_number)
    (hmono : List.Chain' (fun a b => a.frame_number < b.frame_number) stream) :
    selectDistinctFrames cfg stream = specSelectDistinctFrames cfg stream := by
  cases stream with
  | nil => rfl
  | cons f rest =>
      have h1 : isDistinct cfg (initState cfg) f = true := rfl
      have h2 : specIsDistinct cfg (initState cfg) f = true := by
        have hf : 0 ≤ f.frame_number := hidx f (List.mem_cons_self f rest)
        rw [show specIsDistinct cfg (initState cfg) f =
            (simLt (some 0) cfg.similarity_threshold &&
              decide (cfg.min_frame_interval ≤
                f.frame_number - -cfg.min_frame_interval)) from rfl]
        rw [Bool.and_eq_true]
        constructor
        · simpa [simLt] using ht
        · rw [decide_eq_true_eq]
          omega
      rw [selectDistinctFrames, specSelectDistinctFrames, selectGo, specSelectGo,
        if_pos h1, if_pos h2]
      rw [selectGo_eq_specSelectGo_of_some cfg rest
        ⟨some f.fingerprint, f.frame_number⟩ f.fingerprint rfl]

/-- C9 witness: threshold 1/2, interval 2, two frames at indices 0 and 5 with
opposite fingerprints; both procedures select both frames. -/
theorem impl_selection_matches_spec_procedure_witness :
    selectDistinctFrames ⟨1/2, 2⟩
        [⟨0, 0, [true, false]⟩, ⟨5, 1, [false, true]⟩] =
      specSelectDistinctFrames ⟨1/2, 2⟩
        [⟨0, 0, [true, false]⟩, ⟨5, 1, [false, true]⟩] :=
  impl_selection_matches_spec_procedure ⟨1/2, 2⟩
    [⟨0, 0, [true, false]⟩, ⟨5, 1, [false, true]⟩]
    (by norm_num) (by norm_num) (by decide) (by decide)
    (by norm_num [List.chain'_cons])

/-- C10: with no captured frames and a non-empty segment list, processing
completes without raising: `process_video` returns `Except.ok` with an empty
frame list and the full, unmodified flat segment list, and the merge step
leaves the segments ungrouped (no frame to attach them to, no exception). -/
theorem empty_frames_keep_segments_ungrouped (cfg : VTConfig)
    (segs : List AudioSegment) (hne : segs ≠ []) :
    process_video cfg [] segs = Except.ok ⟨[], segs⟩ ∧
    merge_audio_with_frames [] segs = [] := by
  have hm : merge_audio_with_frames [] segs = [] := by
    rw [merge_audio_with_frames, if_neg hne]
    rfl
  refine ⟨?_, hm⟩
  show Except.ok (⟨merge_audio_with_frames [] segs, segs⟩ : TranscriptResult) =
    Except.ok (⟨[], segs⟩ : TranscriptResult)
  rw [hm]

/-- C10 witness: one audio segment, empty stream. -/
theorem empty_frames_keep_segments_ungrouped_witness :
    process_video ⟨92/100, 15⟩ [] [⟨0, 1, "a"⟩] =
      Except.ok ⟨[], [⟨0, 1, "a"⟩]⟩ ∧
    merge_audio_with_frames [] [⟨0, 1, "a"⟩] = [] :=
  empty_frames_keep_segments_ungrouped ⟨92/100, 15⟩ [⟨0, 1, "a"⟩] (by simp)
